import Mathlib

set_option autoImplicit false

-- Shallow embedding of drivers/dpll/dpll_core.c (linux-dpll RFC tree).
-- The kernel xarray is modelled as a list of (index, mark, value) entries kept
-- sorted by index; xa_alloc stores at the lowest free index, xa_for_each walks
-- entries in index order.  GFP_KERNEL allocations (kzalloc, xa_alloc) may fail,
-- which is modelled by an explicit oracle: a list of Bools consumed one per
-- allocation site (an exhausted oracle means "allocation succeeds").

namespace Dpll

-- Error constants from errno-base.h / errno.h; the C code returns them negated.

def errPerm : Int := 1

def errNoent : Int := 2

def errNoDevOrAddr : Int := 6

def errNomem : Int := 12

def errFault : Int := 14

def errExist : Int := 17

def errNoDev : Int := 19

def errInval : Int := 22

def errOpNotSupp : Int := 95

def DPLL_PIN_DESC_LEN : Nat := 20

def DPLL_PIN_TYPE_UNSPEC : Nat := 0

def DPLL_PIN_TYPE_MUX : Nat := 1

def DPLL_PIN_TYPE_MAX : Nat := 5

-- Allocation oracle: one Bool per allocation attempt.

def allocStep : List Bool → Bool × List Bool
  | [] => (true, [])
  | b :: t => (b, t)

-- Xarray model.

structure XaEntry (α : Type) where
  key : Nat
  mark : Bool
  val : α
deriving Repr, DecidableEq

structure Xa (α : Type) where
  entries : List (XaEntry α)
deriving Repr, DecidableEq

namespace Xa

variable {α : Type}

def empty : Xa α := ⟨[]⟩

def keys (xa : Xa α) : List Nat := xa.entries.map XaEntry.key

def vals (xa : Xa α) : List α := xa.entries.map XaEntry.val

def load (xa : Xa α) (k : Nat) : Option α :=
  (xa.entries.find? (fun e => e.key == k)).map XaEntry.val

def getMark (xa : Xa α) (k : Nat) : Bool :=
  ((xa.entries.find? (fun e => e.key == k)).map XaEntry.mark).getD false

def setMark (xa : Xa α) (k : Nat) : Xa α :=
  ⟨xa.entries.map (fun e => if e.key = k then { e with mark := true } else e)⟩

def eraseKey (xa : Xa α) (k : Nat) : Xa α :=
  ⟨xa.entries.filter (fun e => e.key != k)⟩

def isEmpty (xa : Xa α) : Bool := xa.entries.isEmpty

def markedVals (xa : Xa α) : List α :=
  (xa.entries.filter XaEntry.mark).map XaEntry.val

-- Lowest index not yet used, as allocated by xa_alloc.

def lowestFree (ks : List Nat) : Nat :=
  (((List.range (ks.length + 1)).filter (fun n => !(decide (n ∈ ks)))).headD 0)

def insertEntry : List (XaEntry α) → XaEntry α → List (XaEntry α)
  | [], e => [e]
  | f :: t, e => if e.key < f.key then e :: f :: t else f :: insertEntry t e

def alloc (xa : Xa α) (v : α) : Xa α × Nat :=
  let k := lowestFree xa.keys
  (⟨insertEntry xa.entries ⟨k, false, v⟩⟩, k)

def eraseFirstP (p : XaEntry α → Bool) : List (XaEntry α) → List (XaEntry α)
  | [] => []
  | e :: t => if p e then t else e :: eraseFirstP p t

-- Well-formedness: xarray indices are pairwise distinct.

def Wf (xa : Xa α) : Prop := xa.keys.Nodup

instance (xa : Xa α) : Decidable xa.Wf := by
  unfold Wf
  infer_instance

end Xa

-- Notifications emitted through dpll_netlink (dpll_notify_device_create,
-- dpll_notify_device_delete, dpll_pin_notify with PIN_ADD / PIN_DEL).

inductive Notif where
  | devCreate (dev : Nat)
  | devDelete (dev : Nat)
  | pinAdd (dev : Nat) (pin : Nat)
  | pinDel (dev : Nat) (pin : Nat)
deriving Repr, DecidableEq

-- Device registry: struct dpll_device fields used by dpll_core.c, with the
-- global dpll_device_xa as an Xa DpllDevice.  DPLL_REGISTERED is the mark.

structure DpllDevice where
  id : Nat
  clock_id : Nat
  type : Nat
  clock_class : Nat
  dev_driver_idx : Nat
  name : String
deriving Repr, DecidableEq

def dpll_device_get_by_id (xa : Xa DpllDevice) (id : Nat) : Option DpllDevice :=
  if xa.getMark id then xa.load id else none

def dpll_device_get_by_name (xa : Xa DpllDevice) (name : String) : Option DpllDevice :=
  ((xa.entries.filter XaEntry.mark).find? (fun e => e.val.name == name)).map XaEntry.val

def dpll_device_get_by_clock_id (xa : Xa DpllDevice) (clock_id ty idx : Nat) :
    Option DpllDevice :=
  ((xa.entries.filter XaEntry.mark).find? (fun e =>
      e.val.clock_id == clock_id && e.val.type == ty && e.val.dev_driver_idx == idx)).map
    XaEntry.val

-- dpll_device_alloc: kzalloc the device, xa_alloc it into dpll_device_xa
-- (unmarked), set its name from the parent device name, type and driver index,
-- and fire a create notification.  Returns the updated registry and the device.

def dpll_device_alloc (xa : Xa DpllDevice) (ty clock_id clock_class dev_driver_idx : Nat)
    (parentName : String) (o : List Bool) :
    Except Int (Xa DpllDevice × DpllDevice) × List Notif × List Bool :=
  let (ok1, o1) := allocStep o
  if !ok1 then (Except.error (-errNomem), [], o1)
  else
    let (ok2, o2) := allocStep o1
    if !ok2 then (Except.error (-errNomem), [], o2)
    else
      let k := Xa.lowestFree xa.keys
      let d : DpllDevice :=
        { id := k, clock_id := clock_id, type := ty, clock_class := clock_class,
          dev_driver_idx := dev_driver_idx,
          name := ("dpll_") ++ parentName ++ ("_") ++ toString ty ++ ("_") ++
            toString dev_driver_idx }
      (Except.ok (⟨Xa.insertEntry xa.entries ⟨k, false, d⟩⟩, d), [Notif.devCreate k], o2)

-- dpll_device_register: ASSERT_DPLL_NOT_REGISTERED (WARN if the mark is already
-- set), then xa_set_mark.  First component: whether the WARN fired.

def dpll_device_register (xa : Xa DpllDevice) (d : DpllDevice) : Bool × Xa DpllDevice :=
  (xa.getMark d.id, xa.setMark d.id)

-- dpll_device_unregister: ASSERT_DPLL_REGISTERED (WARN if the mark is not set),
-- then xa_erase the entry and fire a delete notification unconditionally.

def dpll_device_unregister (xa : Xa DpllDevice) (d : DpllDevice) :
    Bool × Xa DpllDevice × List Notif :=
  (!(xa.getMark d.id), xa.eraseKey d.id, [Notif.devDelete d.id])

structure FreeOutcome where
  warned : Bool
  freed : Bool
deriving Repr, DecidableEq

-- dpll_device_free: WARN_ON_ONCE when the pin xarray is not empty, then
-- xa_destroy / mutex_destroy / kfree run unconditionally.  Input: the device's
-- pins xarray (entries are pin pointers, modelled as pin ids).

def dpll_device_free (pins : Xa Nat) : FreeOutcome :=
  { warned := !(pins.isEmpty), freed := true }

-- Pin model.  struct dpll_pin: idx (written by xa_alloc in dpll_alloc_pin_on_xa),
-- parent_pin, type, description (a DPLL_PIN_DESC_LEN buffer), ref_dplls.
-- Pins are heap objects aliased from several xarrays, so they are addressed by
-- a pin id (the C pointer) through a heap function in the state.

-- struct dpll_pin_ops: only the two callbacks exercised by the verified
-- operations are modelled; "some r" means the callback pointer is non-NULL and
-- the one invocation this call can make returns r.

structure PinOps where
  signal_type_set : Option Int
  state_enable : Option Int
deriving Repr, DecidableEq

-- struct dpll_pin_ref: (dpll, ops, priv); ref->dpll is a pointer, kept as an
-- Option since dpll_pin_signal_type_set checks it for NULL.

structure PinRef where
  dpll : Option Nat
  ops : Option PinOps
  priv : Nat
deriving Repr, DecidableEq

structure Pin where
  idx : Nat
  parent_pin : Option Nat
  type : Nat
  description : String
  ref_dplls : Xa PinRef
deriving Repr, DecidableEq

-- strncmp(a, b, DPLL_PIN_DESC_LEN) == 0 on two description buffers.  Stored
-- buffers always have a NUL at index DPLL_PIN_DESC_LEN - 1 (dpll_pin_alloc
-- forces it), so the comparison is equality of the first
-- DPLL_PIN_DESC_LEN - 1 characters.

def descrCmp (a b : String) : Bool :=
  a.take (DPLL_PIN_DESC_LEN - 1) == b.take (DPLL_PIN_DESC_LEN - 1)

-- dpll_pin_alloc: kzalloc (zeroed fields), reject type outside
-- (DPLL_PIN_TYPE_UNSPEC, DPLL_PIN_TYPE_MAX], strncpy the description and force
-- a terminating NUL.

def dpll_pin_alloc (description : String) (pin_type : Nat) (o : List Bool) :
    Except Int Pin × List Bool :=
  let (ok, o1) := allocStep o
  if !ok then (Except.error (-errNomem), o1)
  else if pin_type ≤ DPLL_PIN_TYPE_UNSPEC || pin_type > DPLL_PIN_TYPE_MAX then
    (Except.error (-errInval), o1)
  else
    (Except.ok
      { idx := 0, parent_pin := none, type := pin_type,
        description := description.take (DPLL_PIN_DESC_LEN - 1),
        ref_dplls := Xa.empty }, o1)

-- State shared by the registration operations of one dpll device: the device's
-- pins xarray (of pin pointers) plus the pin heap.

structure St where
  pins : Xa Nat
  pin : Nat → Pin

-- The xa_for_each scan of dpll_alloc_pin_on_xa: same pin pointer, or equal
-- description over DPLL_PIN_DESC_LEN.

def pinDupScan (s : St) (p : Nat) : Bool :=
  s.pins.entries.any
    (fun e => e.val == p || descrCmp (s.pin e.val).description (s.pin p).description)

-- The xa_for_each scan of dpll_pin_ref_add: an existing ref to the same dpll.

def refDupScan (s : St) (p : Nat) (d : Nat) : Bool :=
  (s.pin p).ref_dplls.entries.any (fun e => e.val.dpll == some d)

-- dpll_alloc_pin_on_xa: scan the device's pins for the same pointer or an
-- equal description (-EEXIST), else xa_alloc the pin (writing the allocated
-- index into pin->idx) and set PIN_REGISTERED on it.

def dpll_alloc_pin_on_xa (s : St) (p : Nat) (o : List Bool) : Int × St × List Bool :=
  if pinDupScan s p then
    (-errExist, s, o)
  else
    let (ok, o1) := allocStep o
    if !ok then (-errNomem, s, o1)
    else
      let (pins1, k) := s.pins.alloc p
      (0, { pins := pins1.setMark k,
            pin := Function.update s.pin p { s.pin p with idx := k } }, o1)

-- dpll_pin_ref_add: kzalloc a ref; -EEXIST if the pin already has a ref to the
-- same dpll; else xa_alloc the ref into pin->ref_dplls.

def dpll_pin_ref_add (s : St) (p : Nat) (d : Nat) (ops : Option PinOps) (priv : Nat)
    (o : List Bool) : Int × St × List Bool :=
  let (ok1, o1) := allocStep o
  if !ok1 then (-errNomem, s, o1)
  else if refDupScan s p d then
    (-errExist, s, o1)
  else
    let (ok2, o2) := allocStep o1
    if !ok2 then (-errNomem, s, o2)
    else
      let refs1 := ((s.pin p).ref_dplls.alloc { dpll := some d, ops := ops, priv := priv }).fst
      (0, { s with pin := Function.update s.pin p { s.pin p with ref_dplls := refs1 } }, o2)

-- dpll_pin_ref_del: xa_erase the first ref whose dpll matches.

def dpll_pin_ref_del (s : St) (p : Nat) (d : Nat) : St :=
  { s with
    pin := Function.update s.pin p
      { s.pin p with
        ref_dplls :=
          ⟨Xa.eraseFirstP (fun e => e.val.dpll == some d) (s.pin p).ref_dplls.entries⟩ } }

-- pin_deregister_from_xa: xa_erase the first entry holding this pin pointer,
-- -ENXIO when the pin is not in the xarray.

def pin_deregister_from_xa (pins : Xa Nat) (p : Nat) : Int × Xa Nat :=
  if pins.entries.any (fun e => e.val == p) then
    (0, ⟨Xa.eraseFirstP (fun e => e.val == p) pins.entries⟩)
  else (-errNoDevOrAddr, pins)

-- dpll_pin_register: NULL checks, dpll_alloc_pin_on_xa, dpll_pin_ref_add with
-- rollback of the xarray insertion on failure, then dpll_pin_notify on success
-- (its return value notifyRes is discarded).

def dpll_pin_register (s : St) (d : Nat) (pinArg : Option Nat) (ops : Option PinOps)
    (priv : Nat) (o : List Bool) (notifyRes : Int) : Int × St × List Bool × List Notif :=
  match pinArg, ops with
  | none, _ => (-errInval, s, o, [])
  | some _, none => (-errInval, s, o, [])
  | some p, some pops =>
    let (r1, s1, o1) := dpll_alloc_pin_on_xa s p o
    if r1 == 0 then
      let (r2, s2, o2) := dpll_pin_ref_add s1 p d (some pops) priv o1
      if r2 == 0 then (r2, s2, o2, [Notif.pinAdd d p])
      else
        let pins3 := (pin_deregister_from_xa s2.pins p).snd
        (r2, { s2 with pins := pins3 }, o2, [])
    else (r1, s1, o1, [])

-- dpll_pin_get_by_description: first pin in the device's xarray whose
-- description buffer compares equal.

def dpll_pin_get_by_description (s : St) (descr : String) : Option Nat :=
  (s.pins.entries.find? (fun e => descrCmp (s.pin e.val).description descr)).map XaEntry.val

-- dpll_pin_deregister: -ENOENT on an empty pin xarray, else remove the pin
-- from the xarray and, on success, drop its ref to this dpll and notify
-- (return value notifyRes again discarded).

def dpll_pin_deregister (s : St) (d : Nat) (p : Nat) (notifyRes : Int) :
    Int × St × List Notif :=
  if s.pins.isEmpty then (-errNoent, s, [])
  else
    let (r, pins1) := pin_deregister_from_xa s.pins p
    if r == 0 then (0, dpll_pin_ref_del { s with pins := pins1 } p d, [Notif.pinDel d p])
    else (r, { s with pins := pins1 }, [])

-- dpll_pin_free: refuses to free (early return) while pin->ref_dplls is not
-- empty.  Result: whether the pin was freed.

def dpll_pin_free (s : St) (p : Nat) : Bool :=
  (s.pin p).ref_dplls.isEmpty

-- dpll_muxed_pin_register: NULL checks, parent lookup by description
-- (-EINVAL), parent must be a MUX pin (-EPERM), then dpll_alloc_pin_on_xa and
-- dpll_pin_ref_add -- with no rollback of the xarray insertion when
-- dpll_pin_ref_add fails -- then parent assignment and notification on success.

def dpll_muxed_pin_register (s : St) (d : Nat) (parentDescr : Option String)
    (pinArg : Option Nat) (ops : Option PinOps) (priv : Nat) (o : List Bool)
    (notifyRes : Int) : Int × St × List Bool × List Notif :=
  match parentDescr, pinArg with
  | none, _ => (-errInval, s, o, [])
  | some _, none => (-errInval, s, o, [])
  | some pd, some p =>
    match dpll_pin_get_by_description s pd with
    | none => (-errInval, s, o, [])
    | some parent =>
      if (s.pin parent).type ≠ DPLL_PIN_TYPE_MUX then (-errPerm, s, o, [])
      else
        let (r1, s1, o1) := dpll_alloc_pin_on_xa s p o
        if r1 == 0 then
          let (r2, s2, o2) := dpll_pin_ref_add s1 p d ops priv o1
          if r2 == 0 then
            (0, { s2 with
                  pin := Function.update s2.pin p
                    { s2.pin p with parent_pin := some parent } }, o2,
              [Notif.pinAdd d p])
          else (r2, s2, o2, [])
        else (r1, s1, o1, [])

-- dpll_pin_signal_type_set: walk pin->ref_dplls in xarray order; for each ref,
-- -EFAULT on a NULL ref->dpll, -EOPNOTSUPP on a missing ops table or callback,
-- else invoke ref->ops->signal_type_set and stop on a nonzero return.  ret0 is
-- the uninitialised value of the local ret, returned when the walk is empty.
-- The second component records the refs whose callback was invoked, in order.

def sigTypeSetGo (ret : Int) : List PinRef → Int × List PinRef
  | [] => (ret, [])
  | r :: t =>
    match r.dpll with
    | none => (-errFault, [])
    | some _ =>
      match r.ops.bind PinOps.signal_type_set with
      | none => (-errOpNotSupp, [])
      | some res =>
        if res ≠ 0 then (res, [r])
        else
          let (rr, tr) := sigTypeSetGo res t
          (rr, r :: tr)

def dpll_pin_signal_type_set (dpllArg : Nat) (ret0 : Int) (refs : List PinRef) :
    Int × List PinRef :=
  sigTypeSetGo ret0 refs

-- dpll_pin_state_set: same walk with ref->ops->state_enable; the only checks
-- are a missing ops table or callback (-EOPNOTSUPP; the !ref check cannot fire
-- for an entry returned by xa_for_each).  A NULL ref->dpll would be
-- dereferenced for locking, so theorems about this walk assume it non-NULL.

def stateSetGo (ret : Int) : List PinRef → Int × List PinRef
  | [] => (ret, [])
  | r :: t =>
    match r.ops.bind PinOps.state_enable with
    | none => (-errOpNotSupp, [])
    | some res =>
      if res ≠ 0 then (res, [r])
      else
        let (rr, tr) := stateSetGo res t
        (rr, r :: tr)

def dpll_pin_state_set (dpllArg : Nat) (ret0 : Int) (refs : List PinRef) :
    Int × List PinRef :=
  stateSetGo ret0 refs

-- Per-device uniqueness of pin descriptions (the invariant behind the
-- duplicate check of dpll_alloc_pin_on_xa).

def DescUnique (s : St) : Prop :=
  s.pins.entries.Pairwise
    (fun a b => descrCmp (s.pin a.val).description (s.pin b.val).description = false)

instance (s : St) : Decidable (DescUnique s) := by
  unfold DescUnique
  infer_instance

-- A ref that lets the walk of dpll_pin_signal_type_set continue: non-NULL
-- dpll, callback present, callback returned 0.  Likewise for state_enable.

def sigOk (r : PinRef) : Bool :=
  r.dpll.isSome && ((r.ops.bind PinOps.signal_type_set) == some 0)

def stOk (r : PinRef) : Bool :=
  (r.ops.bind PinOps.state_enable) == some 0

-- Concrete objects used by counterexamples and witnesses.

def devC1 : DpllDevice :=
  { id := 0, clock_id := 7, type := 1, clock_class := 1, dev_driver_idx := 0,
    name := ("dpll_p_1_0") }

def xaC1 : Xa DpllDevice := ⟨[⟨0, false, devC1⟩]⟩

def devC5 : DpllDevice :=
  { id := 0, clock_id := 1, type := 1, clock_class := 1, dev_driver_idx := 0,
    name := ("d0") }

def xaC5 : Xa DpllDevice := ⟨[⟨0, false, devC5⟩]⟩

def devA : DpllDevice :=
  { id := 0, clock_id := 2, type := 1, clock_class := 1, dev_driver_idx := 0,
    name := ("devA") }

def devB : DpllDevice :=
  { id := 1, clock_id := 3, type := 1, clock_class := 1, dev_driver_idx := 1,
    name := ("devB") }

def xaC6 : Xa DpllDevice := ⟨[⟨0, true, devA⟩, ⟨1, false, devB⟩]⟩

def mkPin (ty : Nat) (descr : String) : Pin :=
  { idx := 0, parent_pin := none, type := ty, description := descr, ref_dplls := Xa.empty }

def pin0 : Pin := mkPin 2 ("")

def opsW : PinOps := { signal_type_set := some 0, state_enable := some 0 }

def refW : PinRef := { dpll := some 0, ops := some opsW, priv := 0 }

def pinWithRef : Pin := { pin0 with ref_dplls := ⟨[⟨0, false, refW⟩]⟩ }

def stEmpty : St := { pins := Xa.empty, pin := fun _ => pin0 }

def stC2 : St :=
  { pins := ⟨[⟨0, true, 10⟩]⟩,
    pin := fun q => if q = 10 then mkPin DPLL_PIN_TYPE_MUX ("MUX0") else mkPin 2 ("CHILD1") }

def stC4 : St :=
  { pins := Xa.empty, pin := fun q => if q = 1 then mkPin 2 ("P1") else pin0 }

def stC4R : St :=
  { pins := ⟨[⟨0, true, 1⟩]⟩, pin := fun q => if q = 1 then mkPin 2 ("P1") else pin0 }

def stC7 : St := { pins := Xa.empty, pin := fun _ => pinWithRef }

def stC9 : St :=
  { pins := ⟨[⟨0, true, 1⟩, ⟨1, true, 2⟩]⟩,
    pin := fun q =>
      if q = 1 then mkPin 2 ("A") else if q = 2 then mkPin 2 ("B")
      else if q = 3 then mkPin 2 ("A") else pin0 }

def refW2 : PinRef := { dpll := some 1, ops := some opsW, priv := 1 }

def refBad : PinRef :=
  { dpll := some 2, ops := some { signal_type_set := some (-5), state_enable := some (-5) },
    priv := 2 }

-- Lemmas about the xarray model.

namespace Xa

variable {α : Type}

theorem lowestFree_not_mem (ks : List Nat) : lowestFree ks ∉ ks := by
  have hex : ∃ n ∈ List.range (ks.length + 1), n ∉ ks := by
    by_contra hc
    push_neg at hc
    have hsub : List.range (ks.length + 1) ⊆ ks := fun n hn => hc n hn
    have hlen := (List.subperm_of_subset (List.nodup_range _) hsub).length_le
    simp only [List.length_range] at hlen
    omega
  obtain ⟨n, hn, hpn⟩ := hex
  have hne : (List.range (ks.length + 1)).filter (fun n => !(decide (n ∈ ks))) ≠ [] := by
    intro he
    have h2 := List.filter_eq_nil_iff.mp he n hn
    simp only [Bool.not_eq_true', decide_eq_false_iff_not, not_not] at h2
    exact hpn h2
  have hmem : ((List.range (ks.length + 1)).filter (fun n => !(decide (n ∈ ks)))).headD 0
      ∈ (List.range (ks.length + 1)).filter (fun n => !(decide (n ∈ ks))) := by
    cases h : (List.range (ks.length + 1)).filter (fun n => !(decide (n ∈ ks))) with
    | nil => exact absurd h hne
    | cons a t => simp [h]
  have hp := List.of_mem_filter hmem
  simp only [Bool.not_eq_true', decide_eq_false_iff_not] at hp
  exact hp

theorem mem_insertEntry (l : List (XaEntry α)) (x e : XaEntry α) :
    e ∈ insertEntry l x ↔ e = x ∨ e ∈ l := by
  induction l with
  | nil => simp [insertEntry]
  | cons f t ih =>
    simp only [insertEntry]
    split
    · simp
    · rw [List.mem_cons, ih, List.mem_cons]
      tauto

theorem setMarkList_id (l : List (XaEntry α)) (k : Nat) (hk : k ∉ l.map XaEntry.key) :
    l.map (fun e => if e.key = k then { e with mark := true } else e) = l := by
  induction l with
  | nil => rfl
  | cons f t ih =>
    have hfk : ¬(f.key = k) := fun h => hk (by simp [h])
    have ht : k ∉ t.map XaEntry.key := fun h => hk (by simp [h])
    simp only [List.map_cons, if_neg hfk]
    rw [ih ht]

theorem setMarkList_insertEntry (l : List (XaEntry α)) (k : Nat) (m : Bool) (v : α)
    (hk : k ∉ l.map XaEntry.key) :
    (insertEntry l ⟨k, m, v⟩).map
        (fun e => if e.key = k then { e with mark := true } else e)
      = insertEntry l ⟨k, true, v⟩ := by
  induction l with
  | nil => simp [insertEntry]
  | cons f t ih =>
    have hfk : ¬(f.key = k) := fun h => hk (by simp [h])
    have ht : k ∉ t.map XaEntry.key := fun h => hk (by simp [h])
    simp only [insertEntry]
    split
    · simp [hfk, setMarkList_id t k ht]
    · simp only [List.map_cons, if_neg hfk]
      rw [ih ht]

theorem eraseFirstP_insertEntry (p : XaEntry α → Bool) (l : List (XaEntry α))
    (x : XaEntry α) (hl : ∀ e ∈ l, p e = false) (hx : p x = true) :
    eraseFirstP p (insertEntry l x) = l := by
  induction l with
  | nil => simp [insertEntry, eraseFirstP, hx]
  | cons f t ih =>
    have hf := hl f (by simp)
    simp only [insertEntry]
    split
    · simp only [eraseFirstP, if_pos hx]
    · simp only [eraseFirstP]
      rw [if_neg (by simp [hf]), ih (fun e he => hl e (by simp [he]))]

theorem eraseFirstP_sublist (p : XaEntry α → Bool) (l : List (XaEntry α)) :
    List.Sublist (eraseFirstP p l) l := by
  induction l with
  | nil => simp [eraseFirstP]
  | cons f t ih =>
    simp only [eraseFirstP]
    split
    · exact List.sublist_cons_self f t
    · exact List.Sublist.cons₂ f ih

theorem eraseFirstP_no_match (p : XaEntry α → Bool) (l : List (XaEntry α))
    (h : l.countP p = 1) : ∀ e ∈ eraseFirstP p l, p e = false := by
  induction l with
  | nil => simp [eraseFirstP]
  | cons f t ih =>
    by_cases hf : p f = true
    · have hz : t.countP p = 0 := by
        rw [List.countP_cons_of_pos p t hf] at h
        omega
      have hall := List.countP_eq_zero.mp hz
      intro e he
      simp only [eraseFirstP, if_pos hf] at he
      exact Bool.eq_false_iff.mpr (hall e he)
    · have hf' : p f = false := Bool.eq_false_iff.mpr hf
      rw [List.countP_cons_of_neg p t hf] at h
      intro e he
      simp only [eraseFirstP] at he
      rw [if_neg (by simp [hf'])] at he
      rcases List.mem_cons.mp he with rfl | he'
      · exact hf'
      · exact ih h e he'

theorem find?_key_of_mem (l : List (XaEntry α)) (hnd : (l.map XaEntry.key).Nodup)
    (e : XaEntry α) (he : e ∈ l) : l.find? (fun x => x.key == e.key) = some e := by
  induction l with
  | nil => cases he
  | cons f t ih =>
    rcases List.mem_cons.mp he with rfl | he'
    · rw [List.find?_cons_of_pos _ (by simp)]
    · have hmem : e.key ∈ t.map XaEntry.key := List.mem_map_of_mem XaEntry.key he'
      have hfk : f.key ≠ e.key := by
        intro h
        exact (List.nodup_cons.mp (by simpa using hnd)).1 (h ▸ hmem)
      rw [List.find?_cons_of_neg _ (by simpa using hfk)]
      exact ih (List.nodup_cons.mp (by simpa using hnd)).2 he'

theorem getMark_of_mem (xa : Xa α) (hwf : xa.Wf) (e : XaEntry α) (he : e ∈ xa.entries) :
    xa.getMark e.key = e.mark := by
  unfold getMark
  rw [find?_key_of_mem xa.entries hwf e he]
  rfl

theorem load_of_mem (xa : Xa α) (hwf : xa.Wf) (e : XaEntry α) (he : e ∈ xa.entries) :
    xa.load e.key = some e.val := by
  unfold load
  rw [find?_key_of_mem xa.entries hwf e he]
  rfl

theorem filterMark_filterKey (t : List (XaEntry α)) (k : Nat) :
    (t.map XaEntry.key).Nodup →
    ((t.find? (fun e => e.key == k)).map XaEntry.mark).getD false = false →
    (t.filter (fun e => e.key != k)).filter XaEntry.mark = t.filter XaEntry.mark := by
  induction t with
  | nil =>
    intro _ _
    rfl
  | cons f t ih =>
    intro hnd h
    have hnd2 : (∀ x ∈ t, ¬ x.key = f.key) ∧ (t.map XaEntry.key).Nodup := by
      simpa using hnd
    by_cases hfk : f.key = k
    · have hfind : (f :: t).find? (fun e => e.key == k) = some f :=
        List.find?_cons_of_pos t (by simp [hfk])
      rw [hfind] at h
      simp only [Option.map_some', Option.getD_some] at h
      have hkt : ∀ e ∈ t, ¬ e.key = k := fun e he hek =>
        hnd2.1 e he (hek.trans hfk.symm)
      have htt : t.filter (fun e => e.key != k) = t :=
        List.filter_eq_self.mpr (fun e he => by simp [hkt e he])
      rw [List.filter_cons_of_neg (by simp [hfk]), htt,
        List.filter_cons_of_neg (by simp [h])]
    · have hfind : (f :: t).find? (fun e => e.key == k)
          = t.find? (fun e => e.key == k) :=
        List.find?_cons_of_neg t (by simp [hfk])
      rw [hfind] at h
      have ihh := ih hnd2.2 h
      rw [List.filter_cons_of_pos (by simp [hfk])]
      by_cases hm : f.mark = true
      · rw [List.filter_cons_of_pos hm, List.filter_cons_of_pos hm, ihh]
      · rw [List.filter_cons_of_neg hm, List.filter_cons_of_neg hm, ihh]

theorem markedVals_eraseKey (xa : Xa α) (k : Nat) (hwf : xa.Wf)
    (h : xa.getMark k = false) : (xa.eraseKey k).markedVals = xa.markedVals := by
  rcases xa with ⟨l⟩
  exact congrArg (List.map XaEntry.val) (filterMark_filterKey l k hwf h)

theorem pairwise_insertEntry (R : XaEntry α → XaEntry α → Prop) (l : List (XaEntry α))
    (x : XaEntry α) (hsym : ∀ a b, R a b → R b a) (hl : l.Pairwise R)
    (hx : ∀ e ∈ l, R e x) : (insertEntry l x).Pairwise R := by
  induction l with
  | nil => simp [insertEntry]
  | cons f t ih =>
    rcases List.pairwise_cons.mp hl with ⟨hf, ht⟩
    simp only [insertEntry]
    split
    · refine List.pairwise_cons.mpr ⟨?_, hl⟩
      intro e he
      exact hsym _ _ (hx e he)
    · refine List.pairwise_cons.mpr ⟨?_, ih ht (fun e he => hx e (by simp [he]))⟩
      intro e he
      rcases (mem_insertEntry t x e).mp he with rfl | he'
      · exact hx f (by simp)
      · exact hf e he'

end Xa

-- Path equations for the pin-registration operations.

theorem alloc_pin_dup (s : St) (p : Nat) (o : List Bool) (h : pinDupScan s p = true) :
    dpll_alloc_pin_on_xa s p o = (-errExist, s, o) := by
  unfold dpll_alloc_pin_on_xa
  rw [if_pos h]

theorem alloc_pin_nomem (s : St) (p : Nat) (o : List Bool) (h : pinDupScan s p = false)
    (h2 : (allocStep o).fst = false) :
    dpll_alloc_pin_on_xa s p o = (-errNomem, s, (allocStep o).snd) := by
  unfold dpll_alloc_pin_on_xa
  rw [if_neg (by simp [h])]
  rcases hA : allocStep o with ⟨ok, o1⟩
  rw [hA] at h2
  simp only at h2
  subst h2
  rfl

theorem alloc_pin_ok (s : St) (p : Nat) (o : List Bool) (h : pinDupScan s p = false)
    (h2 : (allocStep o).fst = true) :
    dpll_alloc_pin_on_xa s p o =
      (0, { pins := (s.pins.alloc p).fst.setMark (s.pins.alloc p).snd,
            pin := Function.update s.pin p { s.pin p with idx := (s.pins.alloc p).snd } },
        (allocStep o).snd) := by
  unfold dpll_alloc_pin_on_xa
  rw [if_neg (by simp [h])]
  rcases hA : allocStep o with ⟨ok, o1⟩
  rw [hA] at h2
  simp only at h2
  subst h2
  simp only
  rcases hB : s.pins.alloc p with ⟨pins1, k⟩
  rfl

theorem ref_add_nomem1 (s : St) (p d : Nat) (ops : Option PinOps) (priv : Nat)
    (o : List Bool) (h : (allocStep o).fst = false) :
    dpll_pin_ref_add s p d ops priv o = (-errNomem, s, (allocStep o).snd) := by
  unfold dpll_pin_ref_add
  rcases hA : allocStep o with ⟨ok, o1⟩
  rw [hA] at h
  simp only at h
  subst h
  rfl

theorem ref_add_exist (s : St) (p d : Nat) (ops : Option PinOps) (priv : Nat)
    (o : List Bool) (h : (allocStep o).fst = true) (h2 : refDupScan s p d = true) :
    dpll_pin_ref_add s p d ops priv o = (-errExist, s, (allocStep o).snd) := by
  unfold dpll_pin_ref_add
  rcases hA : allocStep o with ⟨ok, o1⟩
  rw [hA] at h
  simp only at h
  subst h
  simp only [Bool.not_true, Bool.false_eq_true, if_false]
  rw [if_pos h2]

theorem ref_add_nomem2 (s : St) (p d : Nat) (ops : Option PinOps) (priv : Nat)
    (o : List Bool) (h : (allocStep o).fst = true) (h2 : refDupScan s p d = false)
    (h3 : (allocStep (allocStep o).snd).fst = false) :
    dpll_pin_ref_add s p d ops priv o = (-errNomem, s, (allocStep (allocStep o).snd).snd) := by
  unfold dpll_pin_ref_add
  rcases hA : allocStep o with ⟨ok, o1⟩
  rw [hA] at h h3
  simp only at h h3
  subst h
  simp only [Bool.not_true, Bool.false_eq_true, if_false]
  rw [if_neg (by simp [h2])]
  rcases hB : allocStep o1 with ⟨ok2, o2⟩
  rw [hB] at h3
  simp only at h3
  subst h3
  rfl

theorem ref_add_ok (s : St) (p d : Nat) (ops : Option PinOps) (priv : Nat)
    (o : List Bool) (h : (allocStep o).fst = true) (h2 : refDupScan s p d = false)
    (h3 : (allocStep (allocStep o).snd).fst = true) :
    dpll_pin_ref_add s p d ops priv o =
      (0, { s with pin := Function.update s.pin p { s.pin p with ref_dplls :=
              ((s.pin p).ref_dplls.alloc { dpll := some d, ops := ops, priv := priv }).fst } },
        (allocStep (allocStep o).snd).snd) := by
  unfold dpll_pin_ref_add
  rcases hA : allocStep o with ⟨ok, o1⟩
  rw [hA] at h h3
  simp only at h h3
  subst h
  simp only [Bool.not_true, Bool.false_eq_true, if_false]
  rw [if_neg (by simp [h2])]
  rcases hB : allocStep o1 with ⟨ok2, o2⟩
  rw [hB] at h3
  simp only at h3
  subst h3
  rfl

theorem ref_add_state_of_fail (s : St) (p d : Nat) (ops : Option PinOps) (priv : Nat)
    (o : List Bool) (h : (dpll_pin_ref_add s p d ops priv o).fst ≠ 0) :
    (dpll_pin_ref_add s p d ops priv o).snd.fst = s := by
  by_cases h1 : (allocStep o).fst = true
  · by_cases h2 : refDupScan s p d = true
    · rw [ref_add_exist s p d ops priv o h1 h2]
    · have h2' := Bool.not_eq_true _ ▸ h2
      by_cases h3 : (allocStep (allocStep o).snd).fst = true
      · rw [ref_add_ok s p d ops priv o h1 (by simpa using h2) h3] at h
        simp at h
      · rw [ref_add_nomem2 s p d ops priv o h1 (by simpa using h2) (by simpa using h3)]
  · rw [ref_add_nomem1 s p d ops priv o (by simpa using h1)]

theorem dupScan_false_no_pin (s : St) (p : Nat) (h : pinDupScan s p = false) :
    ∀ e ∈ s.pins.entries, (e.val == p) = false := by
  intro e he
  have h2 := List.any_eq_false.mp h e he
  simp only [Bool.or_eq_true, not_or] at h2
  exact Bool.eq_false_iff.mpr h2.1

theorem rollback_restores (s : St) (p : Nat) (h : pinDupScan s p = false) :
    (pin_deregister_from_xa
        ((s.pins.alloc p).fst.setMark (s.pins.alloc p).snd) p).snd = s.pins := by
  have hfresh : Xa.lowestFree s.pins.keys ∉ s.pins.keys := Xa.lowestFree_not_mem _
  have hentries : ((s.pins.alloc p).fst.setMark (s.pins.alloc p).snd).entries
      = Xa.insertEntry s.pins.entries ⟨Xa.lowestFree s.pins.keys, true, p⟩ :=
    Xa.setMarkList_insertEntry s.pins.entries (Xa.lowestFree s.pins.keys) false p hfresh
  have hany : (((s.pins.alloc p).fst.setMark (s.pins.alloc p).snd).entries.any
      (fun e => e.val == p)) = true := by
    rw [hentries]
    refine List.any_eq_true.mpr ⟨⟨Xa.lowestFree s.pins.keys, true, p⟩, ?_, by simp⟩
    exact (Xa.mem_insertEntry _ _ _).mpr (Or.inl rfl)
  unfold pin_deregister_from_xa
  rw [if_pos hany, hentries,
    Xa.eraseFirstP_insertEntry _ _ _ (dupScan_false_no_pin s p h) (by simp)]

theorem update_descr (h : Nat → Pin) (p : Nat) (v : Pin)
    (hv : v.description = (h p).description) :
    ∀ q, (Function.update h p v q).description = (h q).description := by
  intro q
  by_cases hq : q = p
  · subst hq
    rw [Function.update_same]
    exact hv
  · rw [Function.update_noteq hq]

theorem pin_register_dup (s : St) (d : Nat) (p : Nat) (pops : PinOps) (priv : Nat)
    (o : List Bool) (nres : Int) (hdup : pinDupScan s p = true) :
    dpll_pin_register s d (some p) (some pops) priv o nres = (-errExist, s, o, []) := by
  unfold dpll_pin_register
  dsimp only
  rw [alloc_pin_dup s p o hdup]
  rfl

theorem pin_register_nomem (s : St) (d : Nat) (p : Nat) (pops : PinOps) (priv : Nat)
    (o : List Bool) (nres : Int) (hdup : pinDupScan s p = false)
    (hok : (allocStep o).fst = false) :
    dpll_pin_register s d (some p) (some pops) priv o nres
      = (-errNomem, s, (allocStep o).snd, []) := by
  unfold dpll_pin_register
  dsimp only
  rw [alloc_pin_nomem s p o hdup hok]
  rfl

-- The state after a successful dpll_alloc_pin_on_xa.

def regS1 (s : St) (p : Nat) : St :=
  { pins := (s.pins.alloc p).fst.setMark (s.pins.alloc p).snd,
    pin := Function.update s.pin p { s.pin p with idx := (s.pins.alloc p).snd } }

-- The state after dpll_alloc_pin_on_xa and dpll_pin_ref_add both succeeded.

def regS2 (s : St) (p d : Nat) (pops : PinOps) (priv : Nat) : St :=
  { regS1 s p with
    pin := Function.update (regS1 s p).pin p
      { (regS1 s p).pin p with
        ref_dplls := (((regS1 s p).pin p).ref_dplls.alloc
          { dpll := some d, ops := some pops, priv := priv }).fst } }

theorem pin_register_fail (s : St) (d : Nat) (pa : Option Nat) (ops : Option PinOps)
    (priv : Nat) (o : List Bool) (nres : Int)
    (h : (dpll_pin_register s d pa ops priv o nres).fst ≠ 0) :
    (dpll_pin_register s d pa ops priv o nres).snd.fst.pins = s.pins
    ∧ (dpll_pin_register s d pa ops priv o nres).snd.snd.snd = []
    ∧ ∀ q, ((dpll_pin_register s d pa ops priv o nres).snd.fst.pin q).description
        = (s.pin q).description := by
  rcases pa with _ | p
  · exact ⟨rfl, rfl, fun q => rfl⟩
  rcases ops with _ | pops
  · exact ⟨rfl, rfl, fun q => rfl⟩
  by_cases hdup : pinDupScan s p = true
  · rw [pin_register_dup s d p pops priv o nres hdup]
    exact ⟨rfl, rfl, fun q => rfl⟩
  · have hdup' : pinDupScan s p = false := by simpa using hdup
    by_cases hok : (allocStep o).fst = true
    · have hreg1 : dpll_alloc_pin_on_xa s p o = (0, regS1 s p, (allocStep o).snd) :=
        alloc_pin_ok s p o hdup' hok
      rcases hT2 : dpll_pin_ref_add (regS1 s p) p d (some pops) priv (allocStep o).snd
        with ⟨r2, s2, o2⟩
      by_cases hr2 : r2 = 0
      · exfalso
        apply h
        show (dpll_pin_register s d (some p) (some pops) priv o nres).fst = 0
        unfold dpll_pin_register
        dsimp only
        rw [hreg1]
        dsimp only
        rw [hT2, hr2]
        rfl
      · have hfail : (dpll_pin_ref_add (regS1 s p) p d (some pops) priv
            (allocStep o).snd).fst ≠ 0 := by
          rw [hT2]
          simpa using hr2
        have hs2 : s2 = regS1 s p := by
          have h5 := ref_add_state_of_fail (regS1 s p) p d (some pops) priv
            (allocStep o).snd hfail
          rw [hT2] at h5
          exact h5
        have hreg : dpll_pin_register s d (some p) (some pops) priv o nres
            = (r2, { s2 with pins := (pin_deregister_from_xa s2.pins p).snd }, o2, []) := by
          unfold dpll_pin_register
          dsimp only
          rw [hreg1]
          dsimp only
          rw [hT2]
          dsimp only
          rw [if_neg (show ¬((r2 == 0) = true) by simpa using hr2)]
          rfl
        rw [hreg]
        refine ⟨?_, rfl, ?_⟩
        · show (pin_deregister_from_xa s2.pins p).snd = s.pins
          rw [hs2]
          exact rollback_restores s p hdup'
        · intro q
          show (s2.pin q).description = (s.pin q).description
          rw [hs2]
          exact update_descr s.pin p { s.pin p with idx := (s.pins.alloc p).snd } rfl q
    · rw [pin_register_nomem s d p pops priv o nres hdup' (by simpa using hok)]
      exact ⟨rfl, rfl, fun q => rfl⟩

theorem pin_register_success (s : St) (d p : Nat) (pops : PinOps) (priv : Nat)
    (o : List Bool) (nres : Int)
    (h : (dpll_pin_register s d (some p) (some pops) priv o nres).fst = 0) :
    pinDupScan s p = false
    ∧ (dpll_pin_register s d (some p) (some pops) priv o nres).snd.fst.pins.entries
        = Xa.insertEntry s.pins.entries ⟨Xa.lowestFree s.pins.keys, true, p⟩
    ∧ (∀ q, ((dpll_pin_register s d (some p) (some pops) priv o nres).snd.fst.pin q).description
        = (s.pin q).description)
    ∧ (dpll_pin_register s d (some p) (some pops) priv o nres).snd.snd.snd
        = [Notif.pinAdd d p] := by
  by_cases hdup : pinDupScan s p = true
  · rw [pin_register_dup s d p pops priv o nres hdup] at h
    exact absurd (show (-errExist : Int) = 0 from h) (by decide)
  · have hdup' : pinDupScan s p = false := by simpa using hdup
    by_cases hok : (allocStep o).fst = true
    · have hreg1 : dpll_alloc_pin_on_xa s p o = (0, regS1 s p, (allocStep o).snd) :=
        alloc_pin_ok s p o hdup' hok
      by_cases hkz : (allocStep (allocStep o).snd).fst = true
      · by_cases href : refDupScan (regS1 s p) p d = true
        · have hT2 := ref_add_exist (regS1 s p) p d (some pops) priv (allocStep o).snd hkz href
          have hregE : dpll_pin_register s d (some p) (some pops) priv o nres
              = (-errExist,
                 { regS1 s p with
                   pins := (pin_deregister_from_xa (regS1 s p).pins p).snd },
                 (allocStep (allocStep o).snd).snd, []) := by
            unfold dpll_pin_register
            dsimp only
            rw [hreg1]
            dsimp only
            rw [hT2]
            rfl
          rw [hregE] at h
          exact absurd (show (-errExist : Int) = 0 from h) (by decide)
        · have href' : refDupScan (regS1 s p) p d = false := by simpa using href
          by_cases hxa2 : (allocStep (allocStep (allocStep o).snd).snd).fst = true
          · have hT2 := ref_add_ok (regS1 s p) p d (some pops) priv (allocStep o).snd
              hkz href' hxa2
            have hreg : dpll_pin_register s d (some p) (some pops) priv o nres
                = (0, regS2 s p d pops priv,
                   (allocStep (allocStep (allocStep o).snd).snd).snd,
                   [Notif.pinAdd d p]) := by
              unfold dpll_pin_register
              dsimp only
              rw [hreg1]
              dsimp only
              rw [hT2]
              rfl
            rw [hreg]
            refine ⟨hdup', ?_, ?_, rfl⟩
            · show ((s.pins.alloc p).fst.setMark (s.pins.alloc p).snd).entries
                  = Xa.insertEntry s.pins.entries ⟨Xa.lowestFree s.pins.keys, true, p⟩
              exact Xa.setMarkList_insertEntry s.pins.entries (Xa.lowestFree s.pins.keys)
                false p (Xa.lowestFree_not_mem _)
            · intro q
              have h1 := update_descr (regS1 s p).pin p
                ({ (regS1 s p).pin p with
                   ref_dplls := (((regS1 s p).pin p).ref_dplls.alloc
                     { dpll := some d, ops := some pops, priv := priv }).fst }) rfl
              have h2 := update_descr s.pin p
                ({ s.pin p with idx := (s.pins.alloc p).snd }) rfl
              exact (h1 q).trans (h2 q)
          · have hT2 := ref_add_nomem2 (regS1 s p) p d (some pops) priv (allocStep o).snd
              hkz href' (by simpa using hxa2)
            have hregE : dpll_pin_register s d (some p) (some pops) priv o nres
                = (-errNomem,
                   { regS1 s p with
                     pins := (pin_deregister_from_xa (regS1 s p).pins p).snd },
                   (allocStep (allocStep (allocStep o).snd).snd).snd, []) := by
              unfold dpll_pin_register
              dsimp only
              rw [hreg1]
              dsimp only
              rw [hT2]
              rfl
            rw [hregE] at h
            exact absurd (show (-errNomem : Int) = 0 from h) (by decide)
      · have hT2 := ref_add_nomem1 (regS1 s p) p d (some pops) priv (allocStep o).snd
          (by simpa using hkz)
        have hregE : dpll_pin_register s d (some p) (some pops) priv o nres
            = (-errNomem,
               { regS1 s p with
                 pins := (pin_deregister_from_xa (regS1 s p).pins p).snd },
               (allocStep (allocStep o).snd).snd, []) := by
          unfold dpll_pin_register
          dsimp only
          rw [hreg1]
          dsimp only
          rw [hT2]
          rfl
        rw [hregE] at h
        exact absurd (show (-errNomem : Int) = 0 from h) (by decide)
    · rw [pin_register_nomem s d p pops priv o nres hdup' (by simpa using hok)] at h
      exact absurd (show (-errNomem : Int) = 0 from h) (by decide)

-- Claim theorems.

/-- Claim C1, counterexample: dpll_device_alloc on an empty registry creates and
stores a device with key (clock_id 7, type 1, dev_driver_idx 0), yet a
subsequent dpll_device_get_by_clock_id with that very key returns NULL (the
device is unmarked), so the second get does not yield the device created by the
first, and no reference count exists to reach 2. -/
theorem C1_counterexample :
    (dpll_device_alloc Xa.empty 1 7 1 0 ("p") []).fst = Except.ok (xaC1, devC1)
    ∧ dpll_device_get_by_clock_id xaC1 7 1 0 = none := by
  constructor
  · rfl
  · rfl

/-- Claim C1 (amended): dpll_device_get_by_clock_id is a pure lookup over
registered devices: a device it returns carries the DPLL_REGISTERED mark and
matches (clock_id, type, dev_driver_idx), and when it returns NULL no
registered device matches; it neither allocates a device on a miss nor
maintains any reference count. -/
theorem C1_get_by_clock_id_pure_lookup (xa : Xa DpllDevice) (cid ty idx : Nat) :
    (∀ d, dpll_device_get_by_clock_id xa cid ty idx = some d →
        d ∈ xa.markedVals ∧ d.clock_id = cid ∧ d.type = ty ∧ d.dev_driver_idx = idx)
    ∧ (dpll_device_get_by_clock_id xa cid ty idx = none →
        ∀ d ∈ xa.markedVals, ¬(d.clock_id = cid ∧ d.type = ty ∧ d.dev_driver_idx = idx)) := by
  constructor
  · intro d hd
    unfold dpll_device_get_by_clock_id at hd
    rcases hof : (xa.entries.filter XaEntry.mark).find? (fun e =>
        e.val.clock_id == cid && e.val.type == ty && e.val.dev_driver_idx == idx) with _ | e
    · rw [hof] at hd
      cases hd
    · rw [hof] at hd
      simp only [Option.map_some'] at hd
      injection hd with hd1
      have hpe := List.find?_some hof
      have hme := List.mem_of_find?_eq_some hof
      subst hd1
      simp only [Bool.and_eq_true, beq_iff_eq] at hpe
      exact ⟨List.mem_map_of_mem XaEntry.val hme, hpe.1.1, hpe.1.2, hpe.2⟩
  · intro hn d hd hmatch
    unfold dpll_device_get_by_clock_id at hn
    rcases hof : (xa.entries.filter XaEntry.mark).find? (fun e =>
        e.val.clock_id == cid && e.val.type == ty && e.val.dev_driver_idx == idx) with _ | e
    · rcases List.mem_map.mp hd with ⟨e, he, hev⟩
      have := List.find?_eq_none.mp hof e he
      rw [hev] at this
      simp only [Bool.and_eq_true, beq_iff_eq] at this
      exact this ⟨⟨hmatch.1, hmatch.2.1⟩, hmatch.2.2⟩
    · rw [hof] at hn
      simp only [Option.map_some'] at hn
      cases hn

/-- Claim C1 witness: the pure-lookup characterization applied to a concrete
registry holding one marked device with key (2, 1, 0). -/
theorem C1_witness :
    devA ∈ xaC6.markedVals ∧ devA.clock_id = 2 ∧ devA.type = 1 ∧ devA.dev_driver_idx = 0 :=
  (C1_get_by_clock_id_pure_lookup xaC6 2 1 0).1 devA (by decide)

/-- Claim C5, counterexample: dpll_device_unregister on a device present in the
table but never registered fires the WARN_ON_ONCE and nevertheless removes the
entry from the device table, so the table does not stay unchanged. -/
theorem C5_counterexample :
    (dpll_device_unregister xaC5 devC5).fst = true
    ∧ (dpll_device_unregister xaC5 devC5).snd.fst ≠ xaC5 := by
  decide

/-- Claim C5 (amended): dpll_device_unregister on a device without the
DPLL_REGISTERED mark fires the invariant-violation warning, still erases the
device's entry from the table and emits a delete notification; only the set of
registered-marked (visible) devices is left unchanged. -/
theorem C5_unregister_unmarked (xa : Xa DpllDevice) (d : DpllDevice) (hwf : xa.Wf)
    (h : xa.getMark d.id = false) :
    (dpll_device_unregister xa d).fst = true
    ∧ (dpll_device_unregister xa d).snd.fst = xa.eraseKey d.id
    ∧ (dpll_device_unregister xa d).snd.fst.markedVals = xa.markedVals
    ∧ (dpll_device_unregister xa d).snd.snd = [Notif.devDelete d.id] := by
  refine ⟨?_, rfl, ?_, rfl⟩
  · unfold dpll_device_unregister
    simp [h]
  · exact Xa.markedVals_eraseKey xa d.id hwf h

/-- Claim C5 witness: the amended statement applied to the concrete one-entry
unmarked registry. -/
theorem C5_witness :
    (dpll_device_unregister xaC5 devC5).snd.fst.markedVals = xaC5.markedVals :=
  (C5_unregister_unmarked xaC5 devC5 (by decide) (by decide)).2.2.1

/-- Claim C6: lookups return visible devices only.  For a well-formed registry,
dpll_device_get_by_id returns an entry's device iff the entry carries the
DPLL_REGISTERED mark; dpll_device_get_by_name returns only name-matching
devices of marked entries; an unmarked entry is returned by neither lookup. -/
theorem C6_lookup_registered_only (xa : Xa DpllDevice) (hwf : xa.Wf) :
    (∀ e ∈ xa.entries, (dpll_device_get_by_id xa e.key = some e.val ↔ e.mark = true))
    ∧ (∀ nm d, dpll_device_get_by_name xa nm = some d → d.name = nm ∧ d ∈ xa.markedVals)
    ∧ (∀ e ∈ xa.entries, e.mark = false → dpll_device_get_by_id xa e.key = none) := by
  have hid : ∀ e ∈ xa.entries, dpll_device_get_by_id xa e.key
      = if e.mark = true then some e.val else none := by
    intro e he
    unfold dpll_device_get_by_id
    rw [Xa.getMark_of_mem xa hwf e he, Xa.load_of_mem xa hwf e he]
  refine ⟨?_, ?_, ?_⟩
  · intro e he
    rw [hid e he]
    by_cases hm : e.mark = true
    · simp [hm]
    · simp [hm]
  · intro nm d hd
    unfold dpll_device_get_by_name at hd
    rcases hof : (xa.entries.filter XaEntry.mark).find? (fun e => e.val.name == nm)
        with _ | e
    · rw [hof] at hd
      cases hd
    · rw [hof] at hd
      simp only [Option.map_some'] at hd
      injection hd with hd1
      have hpe := List.find?_some hof
      have hme := List.mem_of_find?_eq_some hof
      subst hd1
      exact ⟨by simpa using hpe, List.mem_map_of_mem XaEntry.val hme⟩
  · intro e he hm
    rw [hid e he]
    simp [hm]

/-- Claim C6 witness: in a registry with one marked and one unmarked entry, the
id lookup returns the marked device. -/
theorem C6_witness : dpll_device_get_by_id xaC6 0 = some devA :=
  ((C6_lookup_registered_only xaC6 (by decide)).1 ⟨0, true, devA⟩ (by decide)).mpr rfl

/-- Claim C7, counterexample: dpll_device_free on a device whose pin xarray
holds one pin fires the WARN_ON_ONCE but still frees the device (kfree runs
unconditionally), contradicting "the device is not freed while the pin-map is
non-empty". -/
theorem C7_counterexample :
    (dpll_device_free ⟨[⟨0, true, 3⟩]⟩).warned = true
    ∧ (dpll_device_free ⟨[⟨0, true, 3⟩]⟩).freed = true := by
  constructor
  · rfl
  · rfl

/-- Claim C7 (amended): dpll_device_free fires the invariant-violation warning
whenever the pin-map is non-empty but frees the device regardless; it is
dpll_pin_free that refuses to free a pin while its device-reference map is
non-empty. -/
theorem C7_device_free_warns_but_frees (pins : Xa Nat) (s : St) (p : Nat)
    (h1 : pins.isEmpty = false) (h2 : (s.pin p).ref_dplls.isEmpty = false) :
    (dpll_device_free pins).warned = true
    ∧ (dpll_device_free pins).freed = true
    ∧ dpll_pin_free s p = false := by
  refine ⟨?_, rfl, ?_⟩
  · unfold dpll_device_free
    simp [h1]
  · unfold dpll_pin_free
    exact h2

/-- Claim C7 witness: the amended statement applied to a one-entry pin xarray
and a pin holding one device reference. -/
theorem C7_witness : dpll_pin_free stC7 0 = false :=
  (C7_device_free_warns_but_frees ⟨[⟨0, true, 3⟩]⟩ stC7 0 rfl rfl).2.2

-- Path equations for dpll_pin_deregister.

theorem pin_deregister_empty (s : St) (d p : Nat) (nres : Int)
    (h : s.pins.isEmpty = true) :
    dpll_pin_deregister s d p nres = (-errNoent, s, []) := by
  unfold dpll_pin_deregister
  rw [if_pos h]

theorem pin_deregister_absent (s : St) (d p : Nat) (nres : Int)
    (h : s.pins.isEmpty = false)
    (h2 : (s.pins.entries.any (fun e => e.val == p)) = false) :
    dpll_pin_deregister s d p nres = (-errNoDevOrAddr, s, []) := by
  unfold dpll_pin_deregister
  rw [if_neg (by simp [h])]
  have hdx : pin_deregister_from_xa s.pins p = (-errNoDevOrAddr, s.pins) := by
    unfold pin_deregister_from_xa
    rw [if_neg (by simp [h2])]
  dsimp only
  rw [hdx]
  rfl

theorem pin_deregister_found (s : St) (d p : Nat) (nres : Int)
    (h2 : (s.pins.entries.any (fun e => e.val == p)) = true) :
    dpll_pin_deregister s d p nres
      = (0, dpll_pin_ref_del
           { s with pins := ⟨Xa.eraseFirstP (fun e => e.val == p) s.pins.entries⟩ } p d,
         [Notif.pinDel d p]) := by
  have hne : s.pins.isEmpty = false := by
    rcases hE : s.pins.entries with _ | ⟨f, t⟩
    · rw [hE] at h2
      simp at h2
    · show s.pins.entries.isEmpty = false
      rw [hE]
      rfl
  unfold dpll_pin_deregister
  rw [if_neg (by simp [hne])]
  have hdx : pin_deregister_from_xa s.pins p
      = (0, ⟨Xa.eraseFirstP (fun e => e.val == p) s.pins.entries⟩) := by
    unfold pin_deregister_from_xa
    rw [if_pos h2]
  dsimp only
  rw [hdx]
  rfl

theorem ref_del_pins (s : St) (p d : Nat) : (dpll_pin_ref_del s p d).pins = s.pins := rfl

theorem ref_del_descr (s : St) (p d : Nat) :
    ∀ q, ((dpll_pin_ref_del s p d).pin q).description = (s.pin q).description := by
  intro q
  show (Function.update s.pin p
      ({ s.pin p with ref_dplls :=
          ⟨Xa.eraseFirstP (fun e => e.val.dpll == some d) (s.pin p).ref_dplls.entries⟩ })
      q).description = (s.pin q).description
  exact update_descr s.pin p
    ({ s.pin p with ref_dplls :=
        ⟨Xa.eraseFirstP (fun e => e.val.dpll == some d) (s.pin p).ref_dplls.entries⟩ }) rfl q

/-- Claim C3: plain pin registration has no effect on error.  Whenever
dpll_pin_register returns non-zero -- invalid arguments, duplicate pin,
failed xa_alloc, or a failed dpll_pin_ref_add after a successful insertion
(which pin_deregister_from_xa rolls back) -- the device's pin xarray after the
call equals the pin xarray before it. -/
theorem C3_pin_register_rollback (s : St) (d : Nat) (pa : Option Nat) (ops : Option PinOps)
    (priv : Nat) (o : List Bool) (nres : Int)
    (h : (dpll_pin_register s d pa ops priv o nres).fst ≠ 0) :
    (dpll_pin_register s d pa ops priv o nres).snd.fst.pins = s.pins :=
  (pin_register_fail s d pa ops priv o nres h).1

/-- Claim C3 witness: registering pin 1 on an empty device with the kzalloc of
dpll_pin_ref_add failing (oracle [true, false]) returns an error yet leaves
the pin xarray exactly as before. -/
theorem C3_witness :
    (dpll_pin_register stC4 0 (some 1) (some opsW) 0 [true, false] 0).snd.fst.pins
      = stC4.pins :=
  C3_pin_register_rollback stC4 0 (some 1) (some opsW) 0 [true, false] 0 (by decide)

/-- Claim C4, counterexample: registering the identical (device, pin, ops,
priv) a second time does not succeed with an edge refcount of 2; the first
call succeeds, the second returns -EEXIST and leaves the device's pin xarray
unchanged (no refcount exists anywhere in this code). -/
theorem C4_counterexample :
    (dpll_pin_register stC4 0 (some 1) (some opsW) 0 [] 0).fst = 0
    ∧ (dpll_pin_register (dpll_pin_register stC4 0 (some 1) (some opsW) 0 [] 0).snd.fst
        0 (some 1) (some opsW) 0 [] 0).fst = -errExist
    ∧ (dpll_pin_register (dpll_pin_register stC4 0 (some 1) (some opsW) 0 [] 0).snd.fst
        0 (some 1) (some opsW) 0 [] 0).snd.fst.pins
      = (dpll_pin_register stC4 0 (some 1) (some opsW) 0 [] 0).snd.fst.pins := by
  refine ⟨rfl, rfl, rfl⟩

/-- Claim C4 (amended): a second registration of a pin already present in the
device's pin xarray fails with -EEXIST and changes nothing -- there is no edge
reference count -- and a single dpll_pin_deregister already removes the edge
entirely (the pin occurs in the xarray exactly once, so none is left). -/
theorem C4_duplicate_rejected (s : St) (d p : Nat) (pops : PinOps) (priv : Nat)
    (o : List Bool) (nres : Int)
    (hcount : s.pins.entries.countP (fun e => e.val == p) = 1) :
    (dpll_pin_register s d (some p) (some pops) priv o nres).fst = -errExist
    ∧ (dpll_pin_register s d (some p) (some pops) priv o nres).snd.fst = s
    ∧ (dpll_pin_deregister s d p nres).fst = 0
    ∧ ∀ e ∈ (dpll_pin_deregister s d p nres).snd.fst.pins.entries, (e.val == p) = false := by
  have hmem : (s.pins.entries.any (fun e => e.val == p)) = true := by
    rcases List.countP_pos_iff.mp (by omega : 0 < s.pins.entries.countP (fun e => e.val == p))
      with ⟨e, he, hpe⟩
    exact List.any_eq_true.mpr ⟨e, he, hpe⟩
  have hdup : pinDupScan s p = true := by
    rcases List.any_eq_true.mp hmem with ⟨e, he, hpe⟩
    exact List.any_eq_true.mpr ⟨e, he, by simp [hpe]⟩
  have hreg := pin_register_dup s d p pops priv o nres hdup
  have hder := pin_deregister_found s d p nres hmem
  rw [hreg, hder]
  refine ⟨rfl, rfl, rfl, ?_⟩
  intro e he
  have he2 : e ∈ Xa.eraseFirstP (fun e => e.val == p) s.pins.entries := by
    rw [show (dpll_pin_ref_del
        { s with pins := ⟨Xa.eraseFirstP (fun e => e.val == p) s.pins.entries⟩ } p d).pins
      = ⟨Xa.eraseFirstP (fun e => e.val == p) s.pins.entries⟩ from rfl] at he
    exact he
  exact Xa.eraseFirstP_no_match (fun e => e.val == p) s.pins.entries hcount e he2

/-- Claim C4 witness: the amended statement applied to a device already holding
pin 1: the duplicate registration returns -EEXIST. -/
theorem C4_witness :
    (dpll_pin_register stC4R 0 (some 1) (some opsW) 0 [] 0).fst = -errExist :=
  (C4_duplicate_rejected stC4R 0 1 opsW 0 [] 0 (by decide)).1

/-- Claim C2 (code bug): dpll_muxed_pin_register is not atomic.  With a valid
MUX parent pin on the device, dpll_alloc_pin_on_xa succeeds (first oracle
entry) and the kzalloc inside dpll_pin_ref_add fails (second oracle entry);
the call returns -ENOMEM but child pin 11 is left inserted in the device's
pin xarray -- the partial mutation is not undone, unlike dpll_pin_register,
which calls pin_deregister_from_xa on the same failure path. -/
theorem C2_muxed_register_no_rollback :
    (dpll_muxed_pin_register stC2 0 (some ("MUX0")) (some 11) (some opsW) 0
        [true, false] 0).fst = -errNomem
    ∧ ((dpll_muxed_pin_register stC2 0 (some ("MUX0")) (some 11) (some opsW) 0
        [true, false] 0).snd.fst.pins.vals.contains 11) = true
    ∧ ((dpll_muxed_pin_register stC2 0 (some ("MUX0")) (some 11) (some opsW) 0
        [true, false] 0).snd.fst.pin 11).ref_dplls.isEmpty = true := by
  refine ⟨rfl, rfl, rfl⟩

/-- Claim C8: notifications are fire-and-forget.  The results of
dpll_pin_register and dpll_pin_deregister do not depend on the value returned
by dpll_pin_notify (it is discarded); on success exactly one notification is
issued after the mutation, and on failure none is issued. -/
theorem C8_notify_fire_and_forget (s : St) (d : Nat) (pa : Option Nat)
    (ops : Option PinOps) (priv : Nat) (o : List Bool) (p : Nat) (n1 n2 : Int) :
    dpll_pin_register s d pa ops priv o n1 = dpll_pin_register s d pa ops priv o n2
    ∧ dpll_pin_deregister s d p n1 = dpll_pin_deregister s d p n2
    ∧ ((dpll_pin_register s d pa ops priv o n1).fst = 0 →
        (dpll_pin_register s d pa ops priv o n1).snd.snd.snd.length = 1)
    ∧ ((dpll_pin_register s d pa ops priv o n1).fst ≠ 0 →
        (dpll_pin_register s d pa ops priv o n1).snd.snd.snd = [])
    ∧ ((dpll_pin_deregister s d p n1).fst = 0 →
        (dpll_pin_deregister s d p n1).snd.snd.length = 1)
    ∧ ((dpll_pin_deregister s d p n1).fst ≠ 0 →
        (dpll_pin_deregister s d p n1).snd.snd = []) := by
  refine ⟨rfl, rfl, ?_, ?_, ?_, ?_⟩
  · intro h
    rcases pa with _ | pv
    · exact absurd (show (-errInval : Int) = 0 from h) (by decide)
    rcases ops with _ | pops
    · exact absurd (show (-errInval : Int) = 0 from h) (by decide)
    rw [(pin_register_success s d pv pops priv o n1 h).2.2.2]
    rfl
  · intro h
    exact (pin_register_fail s d pa ops priv o n1 h).2.1
  · intro h
    by_cases hE : s.pins.isEmpty = true
    · rw [pin_deregister_empty s d p n1 hE] at h
      exact absurd (show (-errNoent : Int) = 0 from h) (by decide)
    · by_cases hA : (s.pins.entries.any (fun e => e.val == p)) = true
      · rw [pin_deregister_found s d p n1 hA]
        rfl
      · rw [pin_deregister_absent s d p n1 (by simpa using hE) (by simpa using hA)] at h
        exact absurd (show (-errNoDevOrAddr : Int) = 0 from h) (by decide)
  · intro h
    by_cases hE : s.pins.isEmpty = true
    · rw [pin_deregister_empty s d p n1 hE]
    · by_cases hA : (s.pins.entries.any (fun e => e.val == p)) = true
      · rw [pin_deregister_found s d p n1 hA] at h
        exact absurd rfl h
      · rw [pin_deregister_absent s d p n1 (by simpa using hE) (by simpa using hA)]

/-- Claim C8 witness: a successful registration issues exactly one
notification, applied at a concrete device and pin with two different
hook results. -/
theorem C8_witness :
    (dpll_pin_register stC4 0 (some 1) (some opsW) 0 [] 5).snd.snd.snd.length = 1 :=
  (C8_notify_fire_and_forget stC4 0 (some 1) (some opsW) 0 [] 1 5 7).2.2.1 (by decide)

-- Invariance of the device pin xarray and of pin descriptions under
-- dpll_pin_ref_add, whatever path it takes.

theorem ref_add_pins_any (s : St) (p d : Nat) (ops : Option PinOps) (priv : Nat)
    (o : List Bool) : (dpll_pin_ref_add s p d ops priv o).snd.fst.pins = s.pins := by
  by_cases h1 : (allocStep o).fst = true
  · by_cases h2 : refDupScan s p d = true
    · rw [ref_add_exist s p d ops priv o h1 h2]
    · by_cases h3 : (allocStep (allocStep o).snd).fst = true
      · rw [ref_add_ok s p d ops priv o h1 (by simpa using h2) h3]
      · rw [ref_add_nomem2 s p d ops priv o h1 (by simpa using h2) (by simpa using h3)]
  · rw [ref_add_nomem1 s p d ops priv o (by simpa using h1)]

theorem ref_add_descr_any (s : St) (p d : Nat) (ops : Option PinOps) (priv : Nat)
    (o : List Bool) :
    ∀ q, ((dpll_pin_ref_add s p d ops priv o).snd.fst.pin q).description
        = (s.pin q).description := by
  intro q
  by_cases h1 : (allocStep o).fst = true
  · by_cases h2 : refDupScan s p d = true
    · rw [ref_add_exist s p d ops priv o h1 h2]
    · by_cases h3 : (allocStep (allocStep o).snd).fst = true
      · rw [ref_add_ok s p d ops priv o h1 (by simpa using h2) h3]
        exact update_descr s.pin p
          ({ s.pin p with ref_dplls :=
              ((s.pin p).ref_dplls.alloc { dpll := some d, ops := ops, priv := priv }).fst })
          rfl q
      · rw [ref_add_nomem2 s p d ops priv o h1 (by simpa using h2) (by simpa using h3)]
  · rw [ref_add_nomem1 s p d ops priv o (by simpa using h1)]

-- All paths of dpll_muxed_pin_register: either the device pin xarray is left
-- untouched (and every pin description unchanged), or -- whether or not
-- dpll_pin_ref_add then failed, since the muxed path performs no rollback --
-- the child was inserted at the lowest free index with the mark set.

theorem muxed_register_state (s : St) (d : Nat) (pd : Option String) (pa : Option Nat)
    (ops : Option PinOps) (priv : Nat) (o : List Bool) (nres : Int) :
    ((dpll_muxed_pin_register s d pd pa ops priv o nres).snd.fst.pins = s.pins
      ∧ ∀ q, ((dpll_muxed_pin_register s d pd pa ops priv o nres).snd.fst.pin q).description
          = (s.pin q).description)
    ∨ (∃ p, pa = some p ∧ pinDupScan s p = false
        ∧ (dpll_muxed_pin_register s d pd pa ops priv o nres).snd.fst.pins.entries
            = Xa.insertEntry s.pins.entries ⟨Xa.lowestFree s.pins.keys, true, p⟩
        ∧ ∀ q, ((dpll_muxed_pin_register s d pd pa ops priv o nres).snd.fst.pin q).description
            = (s.pin q).description) := by
  rcases pd with _ | pds
  · exact Or.inl ⟨rfl, fun q => rfl⟩
  rcases pa with _ | p
  · exact Or.inl ⟨rfl, fun q => rfl⟩
  rcases hpar : dpll_pin_get_by_description s pds with _ | par
  · have hm : dpll_muxed_pin_register s d (some pds) (some p) ops priv o nres
        = (-errInval, s, o, []) := by
      unfold dpll_muxed_pin_register
      dsimp only
      rw [hpar]
    rw [hm]
    exact Or.inl ⟨rfl, fun q => rfl⟩
  by_cases hmux : (s.pin par).type = DPLL_PIN_TYPE_MUX
  · by_cases hdup : pinDupScan s p = true
    · have hm : dpll_muxed_pin_register s d (some pds) (some p) ops priv o nres
          = (-errExist, s, o, []) := by
        unfold dpll_muxed_pin_register
        dsimp only
        rw [hpar]
        dsimp only
        rw [if_neg (by simp [hmux])]
        rw [alloc_pin_dup s p o hdup]
        rfl
      rw [hm]
      exact Or.inl ⟨rfl, fun q => rfl⟩
    · have hdup' : pinDupScan s p = false := by simpa using hdup
      by_cases hok : (allocStep o).fst = true
      · have hreg1 : dpll_alloc_pin_on_xa s p o = (0, regS1 s p, (allocStep o).snd) :=
          alloc_pin_ok s p o hdup' hok
        rcases hT2 : dpll_pin_ref_add (regS1 s p) p d ops priv (allocStep o).snd
          with ⟨r2, s2, o2⟩
        have hs2pins : s2.pins = (regS1 s p).pins := by
          have h6 := ref_add_pins_any (regS1 s p) p d ops priv (allocStep o).snd
          rw [hT2] at h6
          exact h6
        have hs2descr : ∀ q, (s2.pin q).description = ((regS1 s p).pin q).description := by
          have h6 := ref_add_descr_any (regS1 s p) p d ops priv (allocStep o).snd
          rw [hT2] at h6
          exact h6
        have hregS1descr : ∀ q, ((regS1 s p).pin q).description = (s.pin q).description :=
          update_descr s.pin p ({ s.pin p with idx := (s.pins.alloc p).snd }) rfl
        have hentries : (regS1 s p).pins.entries
            = Xa.insertEntry s.pins.entries ⟨Xa.lowestFree s.pins.keys, true, p⟩ :=
          Xa.setMarkList_insertEntry s.pins.entries (Xa.lowestFree s.pins.keys) false p
            (Xa.lowestFree_not_mem _)
        by_cases hr2 : r2 = 0
        · have hm : dpll_muxed_pin_register s d (some pds) (some p) ops priv o nres
              = (0,
                 { s2 with
                   pin := Function.update s2.pin p
                     { s2.pin p with parent_pin := some par } },
                 o2,
                 [Notif.pinAdd d p]) := by
            unfold dpll_muxed_pin_register
            dsimp only
            rw [hpar]
            dsimp only
            rw [if_neg (by simp [hmux])]
            rw [hreg1]
            dsimp only
            rw [hT2]
            dsimp only
            rw [hr2]
            rfl
          rw [hm]
          refine Or.inr ⟨p, rfl, hdup', ?_, ?_⟩
          · show s2.pins.entries = _
            rw [hs2pins, hentries]
          · intro q
            have h1 := update_descr s2.pin p ({ s2.pin p with parent_pin := some par }) rfl
            exact (h1 q).trans ((hs2descr q).trans (hregS1descr q))
        · have hm : dpll_muxed_pin_register s d (some pds) (some p) ops priv o nres
              = (r2, s2, o2, []) := by
            unfold dpll_muxed_pin_register
            dsimp only
            rw [hpar]
            dsimp only
            rw [if_neg (by simp [hmux])]
            rw [hreg1]
            dsimp only
            rw [hT2]
            dsimp only
            rw [if_neg (show ¬((r2 == 0) = true) from by simpa using hr2)]
            rfl
          rw [hm]
          refine Or.inr ⟨p, rfl, hdup', ?_, ?_⟩
          · show s2.pins.entries = _
            rw [hs2pins, hentries]
          · intro q
            exact (hs2descr q).trans (hregS1descr q)
      · have hm : dpll_muxed_pin_register s d (some pds) (some p) ops priv o nres
            = (-errNomem, s, (allocStep o).snd, []) := by
          unfold dpll_muxed_pin_register
          dsimp only
          rw [hpar]
          dsimp only
          rw [if_neg (by simp [hmux])]
          rw [alloc_pin_nomem s p o hdup' (by simpa using hok)]
          rfl
        rw [hm]
        exact Or.inl ⟨rfl, fun q => rfl⟩
  · have hm : dpll_muxed_pin_register s d (some pds) (some p) ops priv o nres
        = (-errPerm, s, o, []) := by
      unfold dpll_muxed_pin_register
      dsimp only
      rw [hpar]
      dsimp only
      rw [if_pos hmux]
    rw [hm]
    exact Or.inl ⟨rfl, fun q => rfl⟩

-- Description comparison is symmetric, and description uniqueness transports
-- along sublists of the pin xarray and description-preserving heap changes.

theorem descrCmp_symm (a b : String) : descrCmp a b = descrCmp b a := by
  unfold descrCmp
  by_cases h : a.take (DPLL_PIN_DESC_LEN - 1) = b.take (DPLL_PIN_DESC_LEN - 1)
  · rw [h]
  · rw [beq_eq_false_iff_ne.mpr h, beq_eq_false_iff_ne.mpr (Ne.symm h)]

theorem dupScan_false_no_descr (s : St) (p : Nat) (h : pinDupScan s p = false) :
    ∀ e ∈ s.pins.entries,
      descrCmp (s.pin e.val).description (s.pin p).description = false := by
  intro e he
  have h2 := List.any_eq_false.mp h e he
  simp only [Bool.or_eq_true, not_or] at h2
  exact Bool.eq_false_iff.mpr h2.2

theorem DescUnique_sublist (s s' : St)
    (hpins : List.Sublist s'.pins.entries s.pins.entries)
    (hd : ∀ q, (s'.pin q).description = (s.pin q).description)
    (hu : DescUnique s) : DescUnique s' := by
  unfold DescUnique at hu ⊢
  have hS := List.Pairwise.sublist hpins hu
  exact List.Pairwise.imp (fun {a b} hab => by rw [hd a.val, hd b.val]; exact hab) hS

theorem DescUnique_preserved_insert (s s' : St) (p : Nat)
    (hp : pinDupScan s p = false)
    (hpins : s'.pins.entries
        = Xa.insertEntry s.pins.entries ⟨Xa.lowestFree s.pins.keys, true, p⟩)
    (hd : ∀ q, (s'.pin q).description = (s.pin q).description)
    (hu : DescUnique s) : DescUnique s' := by
  unfold DescUnique at hu ⊢
  rw [hpins]
  have hS : (Xa.insertEntry s.pins.entries ⟨Xa.lowestFree s.pins.keys, true, p⟩).Pairwise
      (fun a b => descrCmp (s.pin a.val).description (s.pin b.val).description = false) := by
    refine Xa.pairwise_insertEntry _ _ _ ?_ hu ?_
    · intro a b hab
      rw [descrCmp_symm]
      exact hab
    · intro e he
      exact dupScan_false_no_descr s p hp e he
  exact List.Pairwise.imp (fun {a b} hab => by rw [hd a.val, hd b.val]; exact hab) hS

/-- Claim C9: per-device pin-description uniqueness.  Registering a pin, plain
or muxed (with a valid MUX parent), whose description buffer compares equal to
one already in the device's pin xarray fails with -EEXIST leaving the whole
state unchanged, and every registry operation -- dpll_pin_register,
dpll_muxed_pin_register, dpll_pin_deregister -- preserves pairwise
distinctness of the descriptions in the device's pin xarray. -/
theorem C9_pin_description_unique (s : St) (hu : DescUnique s) :
    (∀ d p pops priv o nres,
        (∃ e ∈ s.pins.entries,
           descrCmp (s.pin e.val).description (s.pin p).description = true) →
        dpll_pin_register s d (some p) (some pops) priv o nres = (-errExist, s, o, []))
    ∧ (∀ d pd p par ops priv o nres,
        dpll_pin_get_by_description s pd = some par →
        (s.pin par).type = DPLL_PIN_TYPE_MUX →
        (∃ e ∈ s.pins.entries,
           descrCmp (s.pin e.val).description (s.pin p).description = true) →
        dpll_muxed_pin_register s d (some pd) (some p) ops priv o nres
          = (-errExist, s, o, []))
    ∧ (∀ d pa ops priv o nres,
        DescUnique (dpll_pin_register s d pa ops priv o nres).snd.fst)
    ∧ (∀ d pd pa ops priv o nres,
        DescUnique (dpll_muxed_pin_register s d pd pa ops priv o nres).snd.fst)
    ∧ (∀ d p nres, DescUnique (dpll_pin_deregister s d p nres).snd.fst) := by
  refine ⟨?_, ?_, ?_, ?_, ?_⟩
  · intro d p pops priv o nres hex
    rcases hex with ⟨e, he, hde⟩
    exact pin_register_dup s d p pops priv o nres
      (List.any_eq_true.mpr ⟨e, he, by simp [hde]⟩)
  · intro d pd p par ops priv o nres hpar hmux hex
    rcases hex with ⟨e, he, hde⟩
    have hdup : pinDupScan s p = true := List.any_eq_true.mpr ⟨e, he, by simp [hde]⟩
    unfold dpll_muxed_pin_register
    dsimp only
    rw [hpar]
    dsimp only
    rw [if_neg (by simp [hmux])]
    rw [alloc_pin_dup s p o hdup]
    rfl
  · intro d pa ops priv o nres
    rcases pa with _ | p
    · exact hu
    rcases ops with _ | pops
    · exact hu
    by_cases h0 : (dpll_pin_register s d (some p) (some pops) priv o nres).fst = 0
    · have hS := pin_register_success s d p pops priv o nres h0
      exact DescUnique_preserved_insert s _ p hS.1 hS.2.1 hS.2.2.1 hu
    · have hF := pin_register_fail s d (some p) (some pops) priv o nres h0
      refine DescUnique_sublist s _ ?_ hF.2.2 hu
      rw [hF.1]
  · intro d pd pa ops priv o nres
    rcases muxed_register_state s d pd pa ops priv o nres
      with ⟨h1, h2⟩ | ⟨p, hpa, hdup, h1, h2⟩
    · refine DescUnique_sublist s _ ?_ h2 hu
      rw [h1]
    · exact DescUnique_preserved_insert s _ p hdup h1 h2 hu
  · intro d p nres
    by_cases hE : s.pins.isEmpty = true
    · rw [pin_deregister_empty s d p nres hE]
      exact hu
    · by_cases hA : (s.pins.entries.any (fun e => e.val == p)) = true
      · rw [pin_deregister_found s d p nres hA]
        refine DescUnique_sublist s _ ?_ ?_ hu
        · show List.Sublist (Xa.eraseFirstP (fun e => e.val == p) s.pins.entries)
            s.pins.entries
          exact Xa.eraseFirstP_sublist _ _
        · intro q
          exact ref_del_descr
            { s with pins := ⟨Xa.eraseFirstP (fun e => e.val == p) s.pins.entries⟩ } p d q
      · rw [pin_deregister_absent s d p nres (by simpa using hE) (by simpa using hA)]
        exact hu

/-- Claim C9 witness: on a device holding pins described "A" and "B",
registering pin 3 whose description is also "A" fails with -EEXIST and leaves
the state unchanged. -/
theorem C9_witness :
    dpll_pin_register stC9 0 (some 3) (some opsW) 0 [] 0 = (-errExist, stC9, [], []) :=
  (C9_pin_description_unique stC9 (by decide)).1 0 3 opsW 0 [] 0
    ⟨⟨0, true, 1⟩, by decide, by decide⟩

-- Lemmas about the broadcast walks of dpll_pin_signal_type_set and
-- dpll_pin_state_set.

theorem sigOk_elim (r : PinRef) (h : sigOk r = true) :
    r.dpll ≠ none ∧ r.ops.bind PinOps.signal_type_set = some 0 := by
  unfold sigOk at h
  rcases hd : r.dpll with _ | dv
  · rw [hd] at h
    simp at h
  rcases hc : r.ops.bind PinOps.signal_type_set with _ | res
  · rw [hc] at h
    simp at h
  · rw [hc, hd] at h
    have hres : res = 0 := by simpa using h
    subst hres
    exact ⟨by simp [hd], rfl⟩

theorem stOk_elim (r : PinRef) (h : stOk r = true) :
    r.ops.bind PinOps.state_enable = some 0 := by
  unfold stOk at h
  rcases hc : r.ops.bind PinOps.state_enable with _ | res
  · rw [hc] at h
    simp at h
  · rw [hc] at h
    have hres : res = 0 := by simpa using h
    subst hres
    exact rfl

theorem sigGo_all_ok (refs : List PinRef) (h : ∀ r ∈ refs, sigOk r = true) :
    ∀ r0, sigTypeSetGo r0 refs = ((if refs.isEmpty then r0 else 0), refs) := by
  induction refs with
  | nil =>
    intro r0
    rfl
  | cons r t ih =>
    intro r0
    obtain ⟨hdne, hc⟩ := sigOk_elim r (h r (by simp))
    rcases hdd : r.dpll with _ | dv
    · exact absurd hdd hdne
    have ihh := ih (fun x hx => h x (by simp [hx])) 0
    unfold sigTypeSetGo
    rw [hdd]
    dsimp only
    rw [hc]
    dsimp only
    rw [if_neg (by simp), ihh]
    dsimp only
    rw [ite_self]
    rfl

theorem stGo_all_ok (refs : List PinRef) (h : ∀ r ∈ refs, stOk r = true) :
    ∀ r0, stateSetGo r0 refs = ((if refs.isEmpty then r0 else 0), refs) := by
  induction refs with
  | nil =>
    intro r0
    rfl
  | cons r t ih =>
    intro r0
    have hc := stOk_elim r (h r (by simp))
    have ihh := ih (fun x hx => h x (by simp [hx])) 0
    unfold stateSetGo
    rw [hc]
    dsimp only
    rw [if_neg (by simp), ihh]
    dsimp only
    rw [ite_self]
    rfl

theorem sigGo_zero_iff (refs : List PinRef) (hd : ∀ r ∈ refs, r.dpll ≠ none) :
    refs ≠ [] → ∀ r0,
      ((sigTypeSetGo r0 refs).fst = 0 ↔ ∀ r ∈ refs, sigOk r = true) := by
  induction refs with
  | nil =>
    intro hne
    exact absurd rfl hne
  | cons r t ih =>
    intro _ r0
    rcases hdd : r.dpll with _ | dv
    · exact absurd hdd (hd r (by simp))
    by_cases hOk : sigOk r = true
    · obtain ⟨_, hc⟩ := sigOk_elim r hOk
      rcases hG : sigTypeSetGo 0 t with ⟨rr, tr⟩
      have hgo : sigTypeSetGo r0 (r :: t) = (rr, r :: tr) := by
        unfold sigTypeSetGo
        rw [hdd]
        dsimp only
        rw [hc]
        dsimp only
        rw [if_neg (by simp), hG]
      rw [hgo]
      by_cases hte : t = []
      · subst hte
        have hrr : rr = 0 := by
          have h7 : ((0 : Int), ([] : List PinRef)) = (rr, tr) := by
            rw [← hG]
            rfl
          exact (Prod.mk.injEq _ _ _ _ |>.mp h7).1.symm
        subst hrr
        constructor
        · intro _ x hx
          rcases List.mem_cons.mp hx with rfl | hx'
          · exact hOk
          · cases hx'
        · intro _
          rfl
      · have ihh := ih (fun x hx => hd x (by simp [hx])) hte 0
        rw [hG] at ihh
        constructor
        · intro h0 x hx
          rcases List.mem_cons.mp hx with rfl | hx'
          · exact hOk
          · exact (ihh.mp (by simpa using h0)) x hx'
        · intro hall
          show rr = 0
          exact ihh.mpr (fun x hx => hall x (by simp [hx]))
    · rcases hcc : r.ops.bind PinOps.signal_type_set with _ | res
      · have hgo : sigTypeSetGo r0 (r :: t) = (-errOpNotSupp, []) := by
          unfold sigTypeSetGo
          rw [hdd]
          dsimp only
          rw [hcc]
        rw [hgo]
        constructor
        · intro h0
          exact absurd (show (-errOpNotSupp : Int) = 0 from h0) (by decide)
        · intro hall
          exact absurd (hall r (by simp)) hOk
      · have hres : res ≠ 0 := by
          intro hres0
          apply hOk
          unfold sigOk
          rw [hcc, hdd, hres0]
          rfl
        have hgo : sigTypeSetGo r0 (r :: t) = (res, [r]) := by
          unfold sigTypeSetGo
          rw [hdd]
          dsimp only
          rw [hcc]
          dsimp only
          rw [if_pos hres]
        rw [hgo]
        constructor
        · intro h0
          exact absurd (show res = 0 from h0) hres
        · intro hall
          exact absurd (hall r (by simp)) hOk

theorem stGo_zero_iff (refs : List PinRef) :
    refs ≠ [] → ∀ r0,
      ((stateSetGo r0 refs).fst = 0 ↔ ∀ r ∈ refs, stOk r = true) := by
  induction refs with
  | nil =>
    intro hne
    exact absurd rfl hne
  | cons r t ih =>
    intro _ r0
    by_cases hOk : stOk r = true
    · have hc := stOk_elim r hOk
      rcases hG : stateSetGo 0 t with ⟨rr, tr⟩
      have hgo : stateSetGo r0 (r :: t) = (rr, r :: tr) := by
        unfold stateSetGo
        rw [hc]
        dsimp only
        rw [if_neg (by simp), hG]
      rw [hgo]
      by_cases hte : t = []
      · subst hte
        have hrr : rr = 0 := by
          have h7 : ((0 : Int), ([] : List PinRef)) = (rr, tr) := by
            rw [← hG]
            rfl
          exact (Prod.mk.injEq _ _ _ _ |>.mp h7).1.symm
        subst hrr
        constructor
        · intro _ x hx
          rcases List.mem_cons.mp hx with rfl | hx'
          · exact hOk
          · cases hx'
        · intro _
          rfl
      · have ihh := ih hte 0
        rw [hG] at ihh
        constructor
        · intro h0 x hx
          rcases List.mem_cons.mp hx with rfl | hx'
          · exact hOk
          · exact (ihh.mp (by simpa using h0)) x hx'
        · intro hall
          show rr = 0
          exact ihh.mpr (fun x hx => hall x (by simp [hx]))
    · rcases hcc : r.ops.bind PinOps.state_enable with _ | res
      · have hgo : stateSetGo r0 (r :: t) = (-errOpNotSupp, []) := by
          unfold stateSetGo
          rw [hcc]
        rw [hgo]
        constructor
        · intro h0
          exact absurd (show (-errOpNotSupp : Int) = 0 from h0) (by decide)
        · intro hall
          exact absurd (hall r (by simp)) hOk
      · have hres : res ≠ 0 := by
          intro hres0
          apply hOk
          unfold stOk
          rw [hcc, hres0]
          rfl
        have hgo : stateSetGo r0 (r :: t) = (res, [r]) := by
          unfold stateSetGo
          rw [hcc]
          dsimp only
          rw [if_pos hres]
        rw [hgo]
        constructor
        · intro h0
          exact absurd (show res = 0 from h0) hres
        · intro hall
          exact absurd (hall r (by simp)) hOk

theorem sigGo_prefix (refs : List PinRef) :
    ∀ r0, ∃ rest, refs = (sigTypeSetGo r0 refs).snd ++ rest := by
  induction refs with
  | nil =>
    intro r0
    exact ⟨[], rfl⟩
  | cons r t ih =>
    intro r0
    rcases hdd : r.dpll with _ | dv
    · have hgo : sigTypeSetGo r0 (r :: t) = (-errFault, []) := by
        unfold sigTypeSetGo
        rw [hdd]
      rw [hgo]
      exact ⟨r :: t, rfl⟩
    rcases hcc : r.ops.bind PinOps.signal_type_set with _ | res
    · have hgo : sigTypeSetGo r0 (r :: t) = (-errOpNotSupp, []) := by
        unfold sigTypeSetGo
        rw [hdd]
        dsimp only
        rw [hcc]
      rw [hgo]
      exact ⟨r :: t, rfl⟩
    by_cases hres : res ≠ 0
    · have hgo : sigTypeSetGo r0 (r :: t) = (res, [r]) := by
        unfold sigTypeSetGo
        rw [hdd]
        dsimp only
        rw [hcc]
        dsimp only
        rw [if_pos hres]
      rw [hgo]
      exact ⟨t, rfl⟩
    · have hres0 : res = 0 := by simpa using hres
      rcases hG : sigTypeSetGo res t with ⟨rr, tr⟩
      obtain ⟨rest, hrest⟩ := ih res
      rw [hG] at hrest
      have hrest2 : t = tr ++ rest := hrest
      have hgo : sigTypeSetGo r0 (r :: t) = (rr, r :: tr) := by
        unfold sigTypeSetGo
        rw [hdd]
        dsimp only
        rw [hcc]
        dsimp only
        rw [if_neg (by simp [hres0]), hG]
      rw [hgo]
      exact ⟨rest, by rw [List.cons_append, ← hrest2]⟩

theorem stGo_prefix (refs : List PinRef) :
    ∀ r0, ∃ rest, refs = (stateSetGo r0 refs).snd ++ rest := by
  induction refs with
  | nil =>
    intro r0
    exact ⟨[], rfl⟩
  | cons r t ih =>
    intro r0
    rcases hcc : r.ops.bind PinOps.state_enable with _ | res
    · have hgo : stateSetGo r0 (r :: t) = (-errOpNotSupp, []) := by
        unfold stateSetGo
        rw [hcc]
      rw [hgo]
      exact ⟨r :: t, rfl⟩
    by_cases hres : res ≠ 0
    · have hgo : stateSetGo r0 (r :: t) = (res, [r]) := by
        unfold stateSetGo
        rw [hcc]
        dsimp only
        rw [if_pos hres]
      rw [hgo]
      exact ⟨t, rfl⟩
    · have hres0 : res = 0 := by simpa using hres
      rcases hG : stateSetGo res t with ⟨rr, tr⟩
      obtain ⟨rest, hrest⟩ := ih res
      rw [hG] at hrest
      have hrest2 : t = tr ++ rest := hrest
      have hgo : stateSetGo r0 (r :: t) = (rr, r :: tr) := by
        unfold stateSetGo
        rw [hcc]
        dsimp only
        rw [if_neg (by simp [hres0]), hG]
      rw [hgo]
      exact ⟨rest, by rw [List.cons_append, ← hrest2]⟩

theorem sigGo_stop (r : PinRef) (post : List PinRef) (hdr : r.dpll ≠ none)
    (hr : ¬ sigOk r = true) :
    ∀ pre, (∀ x ∈ pre, sigOk x = true) → ∀ r0,
      ((r.ops.bind PinOps.signal_type_set = none →
          sigTypeSetGo r0 (pre ++ r :: post) = (-errOpNotSupp, pre))
       ∧ (∀ res, r.ops.bind PinOps.signal_type_set = some res → res ≠ 0 →
          sigTypeSetGo r0 (pre ++ r :: post) = (res, pre ++ [r]))) := by
  intro pre
  induction pre with
  | nil =>
    intro _ r0
    rcases hdd : r.dpll with _ | dv
    · exact absurd hdd hdr
    constructor
    · intro hc
      show sigTypeSetGo r0 (r :: post) = _
      unfold sigTypeSetGo
      rw [hdd]
      dsimp only
      rw [hc]
    · intro res hc hres
      show sigTypeSetGo r0 (r :: post) = _
      unfold sigTypeSetGo
      rw [hdd]
      dsimp only
      rw [hc]
      dsimp only
      rw [if_pos hres]
      rfl
  | cons f t ih =>
    intro hpre r0
    obtain ⟨hfd, hfc⟩ := sigOk_elim f (hpre f (by simp))
    rcases hfdd : f.dpll with _ | fdv
    · exact absurd hfdd hfd
    have ihh := ih (fun x hx => hpre x (by simp [hx])) 0
    constructor
    · intro hc
      have h1 := ihh.1 hc
      show sigTypeSetGo r0 (f :: (t ++ r :: post)) = _
      unfold sigTypeSetGo
      rw [hfdd]
      dsimp only
      rw [hfc]
      dsimp only
      rw [if_neg (by simp), h1]
    · intro res hc hres
      have h1 := ihh.2 res hc hres
      show sigTypeSetGo r0 (f :: (t ++ r :: post)) = _
      unfold sigTypeSetGo
      rw [hfdd]
      dsimp only
      rw [hfc]
      dsimp only
      rw [if_neg (by simp), h1]
      rfl

theorem stGo_stop (r : PinRef) (post : List PinRef) (hr : ¬ stOk r = true) :
    ∀ pre, (∀ x ∈ pre, stOk x = true) → ∀ r0,
      ((r.ops.bind PinOps.state_enable = none →
          stateSetGo r0 (pre ++ r :: post) = (-errOpNotSupp, pre))
       ∧ (∀ res, r.ops.bind PinOps.state_enable = some res → res ≠ 0 →
          stateSetGo r0 (pre ++ r :: post) = (res, pre ++ [r]))) := by
  intro pre
  induction pre with
  | nil =>
    intro _ r0
    constructor
    · intro hc
      show stateSetGo r0 (r :: post) = _
      unfold stateSetGo
      rw [hc]
    · intro res hc hres
      show stateSetGo r0 (r :: post) = _
      unfold stateSetGo
      rw [hc]
      dsimp only
      rw [if_pos hres]
      rfl
  | cons f t ih =>
    intro hpre r0
    have hfc := stOk_elim f (hpre f (by simp))
    have ihh := ih (fun x hx => hpre x (by simp [hx])) 0
    constructor
    · intro hc
      have h1 := ihh.1 hc
      show stateSetGo r0 (f :: (t ++ r :: post)) = _
      unfold stateSetGo
      rw [hfc]
      dsimp only
      rw [if_neg (by simp), h1]
    · intro res hc hres
      have h1 := ihh.2 res hc hres
      show stateSetGo r0 (f :: (t ++ r :: post)) = _
      unfold stateSetGo
      rw [hfc]
      dsimp only
      rw [if_neg (by simp), h1]
      rfl

/-- Claim C10: pin-level set operations broadcast to every device referenced by
the pin.  For a pin with at least one device reference (all refs carrying a
non-NULL dpll, as dpll_pin_ref_add guarantees), both dpll_pin_signal_type_set
and dpll_pin_state_set are independent of the dpll argument (it only selects
lock nesting), walk pin->ref_dplls in xarray order invoking the respective
callback at most once per ref (the invocation trace is a prefix of the ref
list), invoke it once for every ref when all callbacks succeed, return 0 iff
the callback is present and succeeds for every linked device, and stop at the
first ref whose callback is missing (-EOPNOTSUPP, not invoked) or fails (its
error returned, invocation trace ending at that ref). -/
theorem C10_set_broadcast (dArg dArg2 : Nat) (refs : List PinRef) (r0 : Int)
    (hne : refs ≠ []) (hd : ∀ r ∈ refs, r.dpll ≠ none) :
    (dpll_pin_signal_type_set dArg r0 refs = dpll_pin_signal_type_set dArg2 r0 refs
      ∧ dpll_pin_state_set dArg r0 refs = dpll_pin_state_set dArg2 r0 refs)
    ∧ ((dpll_pin_signal_type_set dArg r0 refs).fst = 0 ↔ ∀ r ∈ refs, sigOk r = true)
    ∧ ((∀ r ∈ refs, sigOk r = true) → dpll_pin_signal_type_set dArg r0 refs = (0, refs))
    ∧ (∃ rest, refs = (dpll_pin_signal_type_set dArg r0 refs).snd ++ rest)
    ∧ (∀ pre r post, refs = pre ++ r :: post → (∀ x ∈ pre, sigOk x = true) →
        ¬ sigOk r = true →
        ((r.ops.bind PinOps.signal_type_set = none →
            dpll_pin_signal_type_set dArg r0 refs = (-errOpNotSupp, pre))
         ∧ (∀ res, r.ops.bind PinOps.signal_type_set = some res → res ≠ 0 →
            dpll_pin_signal_type_set dArg r0 refs = (res, pre ++ [r]))))
    ∧ ((dpll_pin_state_set dArg r0 refs).fst = 0 ↔ ∀ r ∈ refs, stOk r = true)
    ∧ ((∀ r ∈ refs, stOk r = true) → dpll_pin_state_set dArg r0 refs = (0, refs))
    ∧ (∃ rest, refs = (dpll_pin_state_set dArg r0 refs).snd ++ rest)
    ∧ (∀ pre r post, refs = pre ++ r :: post → (∀ x ∈ pre, stOk x = true) →
        ¬ stOk r = true →
        ((r.ops.bind PinOps.state_enable = none →
            dpll_pin_state_set dArg r0 refs = (-errOpNotSupp, pre))
         ∧ (∀ res, r.ops.bind PinOps.state_enable = some res → res ≠ 0 →
            dpll_pin_state_set dArg r0 refs = (res, pre ++ [r])))) := by
  refine ⟨⟨rfl, rfl⟩, ?_, ?_, ?_, ?_, ?_, ?_, ?_, ?_⟩
  · exact sigGo_zero_iff refs hd hne r0
  · intro hall
    show sigTypeSetGo r0 refs = (0, refs)
    rw [sigGo_all_ok refs hall r0]
    rcases refs with _ | ⟨r, t⟩
    · exact absurd rfl hne
    · rfl
  · exact sigGo_prefix refs r0
  · intro pre r post hsplit hpre hbad
    have hdr : r.dpll ≠ none := hd r (by rw [hsplit]; simp)
    have := sigGo_stop r post hdr hbad pre hpre r0
    rw [hsplit]
    exact this
  · exact stGo_zero_iff refs hne r0
  · intro hall
    show stateSetGo r0 refs = (0, refs)
    rw [stGo_all_ok refs hall r0]
    rcases refs with _ | ⟨r, t⟩
    · exact absurd rfl hne
    · rfl
  · exact stGo_prefix refs r0
  · intro pre r post hsplit hpre hbad
    have := stGo_stop r post hbad pre hpre r0
    rw [hsplit]
    exact this

/-- Claim C10 witness: with two refs whose callbacks are present and succeed,
both set operations invoke the callback once per referenced device and
return 0. -/
theorem C10_witness :
    dpll_pin_signal_type_set 0 (-3) [refW, refW2] = (0, [refW, refW2]) :=
  ((C10_set_broadcast 0 1 [refW, refW2] (-3) (by decide) (by decide)).2.2.1) (by decide)

end Dpll
